import Mathlib

/-!
# Verification of `scripts/rootfs_tool.py` (RTL RootFS tool)

A shallow embedding of the RTL RootFS tool.  A file on disk is modelled as a
`List Nat` of its bytes (each element is a byte value; the operations below
only combine bytes through big-endian decoding and modular sums, so no
separate well-formedness predicate is needed).  Python exceptions are
modelled by `Except PyErr`:  `struct.error` (short buffer for `unpack`,
out-of-range value for `pack`) is `PyErr.structError`, and the two
`RuntimeError` format failures are `PyErr.badMagic`
(message: Doesn t appear to be a SquashFS.) and `PyErr.notRTL`
(message: Not an RTL Squash filesystem).

Byte-level helpers mirror the `struct` calls of the script:
`>H` / `>I` big-endian decoding is `be16` / `be32`, packing is
`pack16` / `pack32`.
-/

namespace RTL

set_option autoImplicit false
set_option maxRecDepth 262144

/-- Decode a big-endian 16-bit word from two bytes (`struct.unpack made of one H`). -/
def be16 (hi lo : Nat) : Nat := hi * 256 + lo

/-- Decode a big-endian 32-bit word from four bytes (`struct.unpack made of one I`). -/
def be32 (b0 b1 b2 b3 : Nat) : Nat := ((b0 * 256 + b1) * 256 + b2) * 256 + b3

/-- Encode a 16-bit value big-endian (`struct.pack of one H`); callers pass values `< 65536`. -/
def pack16 (n : Nat) : List Nat := [n / 256 % 256, n % 256]

/-- Encode a 32-bit value big-endian (`struct.pack of one I`); callers guard `n < 2^32`. -/
def pack32 (n : Nat) : List Nat :=
  [n / 16777216 % 256, n / 65536 % 256, n / 256 % 256, n % 256]

/-- `file[i]`, used only at indices already guarded by a length check. -/
def byte (f : List Nat) (i : Nat) : Nat := f.getD i 0

/-- The Python exceptions the script can raise. -/
inductive PyErr where
  /-- `struct.error`: `unpack` on a short buffer, or `pack` of an out-of-range value. -/
  | structError
  /-- `RuntimeError`, message: Doesn t appear to be a SquashFS. -/
  | badMagic
  /-- `RuntimeError`, message: Not an RTL Squash filesystem. -/
  | notRTL
deriving DecidableEq

/-- `SQUASHFS_MAGIC_BE = 0x68737173`. -/
def SQUASHFS_MAGIC_BE : Nat := 0x68737173

/-- `SIZE_OF_SQFS_SUPER_BLOCK = 640`. -/
def SIZE_OF_SQFS_SUPER_BLOCK : Nat := 640

/-- `_checksum_buffer(b, checksum)`: sum the big-endian 16-bit words of `b`,
masking with `0xFFFF` after every addition.  A trailing single byte makes
`struct.unpack` fail on a 1-byte slice (`struct.error`). -/
def _checksum_buffer : List Nat → Nat → Except PyErr Nat
  | [], checksum => .ok checksum
  | [_], _ => .error .structError
  | hi :: lo :: rest, checksum => _checksum_buffer rest ((checksum + be16 hi lo) % 65536)

/-- The word-summing loop of `cmd_check`: `n` iterations of
`word, = struct.unpack of 2 read bytes; checksum += word; checksum &= 0xFFFF`,
consuming the file from the front.  Running out of bytes is `struct.error`. -/
def check_words_sum : List Nat → Nat → Nat → Except PyErr Nat
  | _, 0, checksum => .ok checksum
  | hi :: lo :: rest, n + 1, checksum =>
      check_words_sum rest n ((checksum + be16 hi lo) % 65536)
  | _, _ + 1, _ => .error .structError

/-- `cmd_check(args)`: returns `true` for Checksum passed, `false` for
Checksum failed (both are normal returns in the script: a print, not an
exception). -/
def cmd_check (file : List Nat) : Except PyErr Bool :=
  if file.length < 22 then .error .structError
  else if be32 (byte file 0) (byte file 1) (byte file 2) (byte file 3) ≠ SQUASHFS_MAGIC_BE then
    .error .badMagic
  else
    let rtl_size := be32 (byte file 8) (byte file 9) (byte file 10) (byte file 11)
      + SIZE_OF_SQFS_SUPER_BLOCK + 2
    if rtl_size > file.length then .error .notRTL
    else
      match check_words_sum file (rtl_size / 2) 0 with
      | .ok checksum => .ok (checksum == 0)
      | .error e => .error e

/-- The word loop of `cmd_extract`: `n` iterations of reading a 2-byte word
(consuming the file from the front, `pos` being the read position so that
`f.tell()` after the read is `pos + 2`), writing the word to the output
unless `f.tell() == file_size`, and accumulating the masked sum.  Returns
(bytes written, final checksum).  The caller only invokes it with
`2 * n ≤ file_size` bytes available, so the `struct.error` arm is dead there. -/
def extract_words : List Nat → Nat → Nat → Nat → Nat → Except PyErr (List Nat × Nat)
  | _, _, 0, _, checksum => .ok ([], checksum)
  | hi :: lo :: rest, file_size, n + 1, pos, checksum =>
      match extract_words rest file_size n (pos + 2) ((checksum + be16 hi lo) % 65536) with
      | .ok (out, cf) => .ok ((if pos + 2 ≠ file_size then [hi, lo] else []) ++ out, cf)
      | .error e => .error e
  | _, _, _ + 1, _, _ => .error .structError

/-- `cmd_extract(args)`: returns the bytes written to `squashfs_out` paired
with the outcome.  The output file is created first; the 22-byte header read
by `struct.unpack` is written to it before the magic and size validations
run.  On success the `Bool` is `true` for Checksum passed. -/
def cmd_extract (file : List Nat) : List Nat × Except PyErr Bool :=
  if file.length < 22 then ([], .error .structError)
  else
    let header := file.take 22
    if be32 (byte file 0) (byte file 1) (byte file 2) (byte file 3) ≠ SQUASHFS_MAGIC_BE then
      (header, .error .badMagic)
    else
      let rtl_size := be32 (byte file 8) (byte file 9) (byte file 10) (byte file 11)
        + SIZE_OF_SQFS_SUPER_BLOCK + 2
      if rtl_size > file.length then (header, .error .notRTL)
      else
        match extract_words file file.length (rtl_size / 2) 0 0 with
        | .ok (out, checksum) => (header ++ out, .ok (checksum == 0))
        | .error e => (header, .error e)

/-- The chunk loop of `cmd_build`: read up to 1024 bytes at a time; a chunk
of odd length is padded with a zero byte before it is summed and (in the
non-checksum-only mode) written.  Returns (payload bytes written, final
checksum). -/
def build_loop (rest : List Nat) (checksum : Nat) : Except PyErr (List Nat × Nat) :=
  if rest = [] then .ok ([], checksum)
  else
    let b := rest.take 1024
    let b := if b.length % 2 ≠ 0 then b ++ [0] else b
    match _checksum_buffer b checksum with
    | .error e => .error e
    | .ok c =>
      match build_loop (rest.drop 1024) c with
      | .error e => .error e
      | .ok (out, cf) => .ok (b ++ out, cf)
termination_by rest.length
decreasing_by
  simp only [List.length_drop]
  have hne : rest.length ≠ 0 := by
    intro h0
    exact (by assumption : ¬ rest = []) (List.length_eq_zero.mp h0)
  omega

/-- The `squashfs_size` computed by `cmd_build` from the input file size: a
Python integer (possibly negative), length minus 640, bumped by one when odd.
The Python percent operator on a negative integer returns a nonnegative remainder, exactly
as `Int.emod` by a positive modulus does. -/
def rtl_build_size (len : Nat) : Int :=
  let squashfs_size : Int := (len : Int) - (SIZE_OF_SQFS_SUPER_BLOCK : Int)
  if squashfs_size % 2 ≠ 0 then squashfs_size + 1 else squashfs_size

/-- `cmd_build(args)`: `squashfs_size` is `rtl_build_size` of the input file
size; `struct.pack of one I` rejects it outside `[0, 2^32)`.  The 8-byte
prefix is read (`struct.error` if fewer than 8 bytes exist), the magic
validated, 4 bytes skipped, and the patched 12-byte header, the padded
payload chunks and the final complement word are written — only the final
word when `checksum_only` is set (`cmd_sum`).  Returns the bytes written to
the output file. -/
def cmd_build (checksum_only : Bool) (input : List Nat) : Except PyErr (List Nat) :=
  let squashfs_size : Int := rtl_build_size input.length
  if input.length < 8 then .error .structError
  else if be32 (byte input 0) (byte input 1) (byte input 2) (byte input 3) ≠ SQUASHFS_MAGIC_BE then
    .error .badMagic
  else if squashfs_size < 0 ∨ (4294967296 : Int) ≤ squashfs_size then .error .structError
  else
    let header_prefix := input.take 8 ++ pack32 squashfs_size.toNat
    match _checksum_buffer header_prefix 0 with
    | .error e => .error e
    | .ok c =>
      match build_loop (input.drop 12) c with
      | .error e => .error e
      | .ok (body, cf) =>
        .ok ((if checksum_only then [] else header_prefix ++ body)
          ++ pack16 ((65536 - cf) % 65536))

/-- `cmd_sum(args)`: `cmd_build` with `checksum_only` set, the output file
being `checksum_file`. -/
def cmd_sum (input : List Nat) : Except PyErr (List Nat) := cmd_build true input

/-- `n` rounded up to the nearest even number. -/
def upEven (n : Nat) : Nat := if n % 2 = 0 then n else n + 1

/-- A list padded with one zero byte when its length is odd. -/
def padEven (l : List Nat) : List Nat := if l.length % 2 = 0 then l else l ++ [0]

/-! ### Lemmas about the checksum engine -/

/-- On a buffer of even length `_checksum_buffer` never raises. -/
theorem csum_ok : ∀ (b : List Nat), b.length % 2 = 0 → ∀ c : Nat,
    ∃ s, _checksum_buffer b c = .ok s
  | [], _, c => ⟨c, rfl⟩
  | [_], h, _ => by simp at h
  | x :: y :: rest, h, c => by
      have h2 : rest.length % 2 = 0 := by
        have : (rest.length + 2) % 2 = 0 := by simpa [Nat.add_assoc] using h
        omega
      simpa [_checksum_buffer] using csum_ok rest h2 ((c + be16 x y) % 65536)

/-- The running accumulator stays below `2^16` once it starts there. -/
theorem csum_lt : ∀ (b : List Nat) (c : Nat), c < 65536 → ∀ s : Nat,
    _checksum_buffer b c = .ok s → s < 65536
  | [], c, hc, s, h => by
      simp only [_checksum_buffer, Except.ok.injEq] at h
      omega
  | [_], _, _, _, h => by simp [_checksum_buffer] at h
  | x :: y :: rest, c, _, s, h => by
      refine csum_lt rest ((c + be16 x y) % 65536) (Nat.mod_lt _ (by norm_num)) s ?_
      simpa [_checksum_buffer] using h

/-- Splitting a buffer at an even offset splits the sum. -/
theorem csum_append : ∀ (a : List Nat), a.length % 2 = 0 → ∀ (b : List Nat) (c : Nat),
    _checksum_buffer (a ++ b) c = (_checksum_buffer a c).bind fun s => _checksum_buffer b s
  | [], _, b, c => by simp [_checksum_buffer, Except.bind]
  | [_], h, _, _ => by simp at h
  | x :: y :: rest, h, b, c => by
      have h2 : rest.length % 2 = 0 := by
        have : (rest.length + 2) % 2 = 0 := by simpa [Nat.add_assoc] using h
        omega
      simpa [_checksum_buffer] using csum_append rest h2 b ((c + be16 x y) % 65536)

/-- Summing a packed 16-bit word adds that word. -/
theorem csum_pack16 (m : Nat) (hm : m < 65536) (c : Nat) :
    _checksum_buffer (pack16 m) c = .ok ((c + m) % 65536) := by
  have hdec : m / 256 % 256 * 256 + m % 256 = m := by omega
  simp [pack16, _checksum_buffer, be16, hdec]

/-- The word loop of `cmd_check` is `_checksum_buffer` on the first `2 * n` bytes. -/
theorem check_words_eq : ∀ (n : Nat) (f : List Nat) (c : Nat), 2 * n ≤ f.length →
    check_words_sum f n c = _checksum_buffer (f.take (2 * n)) c
  | 0, f, c, _ => by simp [check_words_sum, _checksum_buffer]
  | n + 1, [], _, h => by simp at h
  | n + 1, [_], _, h => by
      simp only [List.length_singleton] at h
      omega
  | n + 1, x :: y :: rest, c, h => by
      have h2 : 2 * n ≤ rest.length := by
        simp only [List.length_cons] at h
        omega
      have harith : 2 * (n + 1) = 2 * n + 1 + 1 := by omega
      rw [harith]
      simp only [List.take_succ_cons, check_words_sum, _checksum_buffer]
      exact check_words_eq n rest ((c + be16 x y) % 65536) h2

/-- The `cmd_extract` loop can only raise `struct.error`, never a format error. -/
theorem extract_words_error : ∀ (f : List Nat) (fs n pos c : Nat) (e : PyErr),
    extract_words f fs n pos c = .error e → e = .structError
  | _, _, 0, _, _, _ => by intro h; simp [extract_words] at h
  | x :: y :: rest, fs, n + 1, pos, c, e => by
      intro h
      simp only [extract_words] at h
      cases hrec : extract_words rest fs n (pos + 2) ((c + be16 x y) % 65536) with
      | ok p => rw [hrec] at h; simp at h
      | error e2 =>
          rw [hrec] at h
          simp only [Except.error.injEq] at h
          exact h ▸ extract_words_error rest fs n (pos + 2) ((c + be16 x y) % 65536) e2 hrec
  | [], _, n + 1, _, _, e => by
      intro h
      simp only [extract_words, Except.error.injEq] at h
      exact h.symm
  | [_], _, n + 1, _, _, e => by
      intro h
      simp only [extract_words, Except.error.injEq] at h
      exact h.symm

/-- Decoding the four packed bytes of a 32-bit value gives the value back. -/
theorem be32_pack32 (n : Nat) (hn : n < 4294967296) :
    be32 (n / 16777216 % 256) (n / 65536 % 256) (n / 256 % 256) (n % 256) = n := by
  simp only [be32]
  omega

/-! ### Arithmetic facts about the rounded-up sizes -/

theorem upEven_even (n : Nat) : upEven n % 2 = 0 := by
  simp only [upEven]; split <;> omega

theorem le_upEven (n : Nat) : n ≤ upEven n := by
  simp only [upEven]; split <;> omega

theorem upEven_sub_640 (n : Nat) (h : 639 ≤ n) : upEven (n - 640) + 642 = upEven n + 2 := by
  simp only [upEven]; split <;> split <;> omega

theorem upEven_add_12 (n : Nat) (h : 12 ≤ n) : 12 + upEven (n - 12) = upEven n := by
  simp only [upEven]; split <;> split <;> omega

theorem padEven_length (l : List Nat) : (padEven l).length = upEven l.length := by
  simp only [padEven, upEven]
  split <;> simp

theorem padEven_even (l : List Nat) : (padEven l).length % 2 = 0 := by
  rw [padEven_length]; exact upEven_even _

/-- For an input of at least 639 bytes, the Python size computation is the
length minus 640, rounded up to even (`-1` is odd in Python and is bumped
to `0`). -/
theorem rtl_build_size_eq (len : Nat) (h : 639 ≤ len) :
    rtl_build_size len = (upEven (len - 640) : Int) := by
  simp only [rtl_build_size, SIZE_OF_SQFS_SUPER_BLOCK, upEven]
  split <;> split <;> omega

/-- For an input of at most 638 bytes, the Python size computation is negative,
so `struct.pack of one I` raises. -/
theorem rtl_build_size_neg (len : Nat) (h : len ≤ 638) : rtl_build_size len < 0 := by
  simp only [rtl_build_size, SIZE_OF_SQFS_SUPER_BLOCK]
  split <;> omega

/-! ### The chunked build loop is `_checksum_buffer` over the padded payload -/

theorem build_loop_nil (c : Nat) : build_loop [] c = .ok ([], c) := by
  rw [build_loop]
  simp

/-- The 1024-byte chunking of `cmd_build` is invisible: only the final chunk
can have odd length, so the loop writes exactly the zero-padded payload and
accumulates its `_checksum_buffer` sum. -/
theorem build_loop_eq (rest : List Nat) (c : Nat) :
    build_loop rest c = (_checksum_buffer (padEven rest) c).map fun s => (padEven rest, s) := by
  rw [build_loop]
  split
  · next hnil =>
      subst hnil
      simp [padEven, _checksum_buffer, Except.map]
  · next hne =>
      by_cases hlen : rest.length ≤ 1024
      · rw [List.take_of_length_le hlen, List.drop_eq_nil_of_le hlen]
        simp only []
        have hb : (if rest.length % 2 ≠ 0 then rest ++ [0] else rest) = padEven rest := by
          simp only [padEven, ne_eq, ite_not]
        rw [hb]
        cases hs : _checksum_buffer (padEven rest) c with
        | error e => simp [Except.map]
        | ok s => simp [build_loop_nil, Except.map]
      · have htake : (rest.take 1024).length = 1024 := by
          simp only [List.length_take]
          omega
        have heven : (rest.take 1024).length % 2 = 0 := by rw [htake]
        have hb : (if (rest.take 1024).length % 2 ≠ 0 then rest.take 1024 ++ [0]
            else rest.take 1024) = rest.take 1024 := by
          rw [heven]
          simp
        simp only []
        rw [hb]
        have hsplit : padEven rest = rest.take 1024 ++ padEven (rest.drop 1024) := by
          by_cases hp : rest.length % 2 = 0
          · have hp2 : (rest.drop 1024).length % 2 = 0 := by
              simp only [List.length_drop]
              omega
            simp only [padEven, if_pos hp, if_pos hp2]
            exact (List.take_append_drop 1024 rest).symm
          · have hp2 : ¬ (rest.drop 1024).length % 2 = 0 := by
              simp only [List.length_drop]
              omega
            simp only [padEven, if_neg hp, if_neg hp2]
            rw [← List.append_assoc, List.take_append_drop]
        rw [hsplit, csum_append _ heven]
        cases hc1 : _checksum_buffer (rest.take 1024) c with
        | error e => simp [Except.bind, Except.map]
        | ok c1 =>
            simp only [Except.bind]
            rw [build_loop_eq (rest.drop 1024) c1]
            cases hc2 : _checksum_buffer (padEven (rest.drop 1024)) c1 with
            | error e => simp [Except.map]
            | ok cf => simp [Except.map]
termination_by rest.length
decreasing_by
  simp only [List.length_drop]
  omega

/-! ### Characterization of `cmd_build` on accepted inputs -/

/-- On an accepted input (magic correct, at least 639 bytes, computed size
below `2^32`), `cmd_build` returns the patched header, the zero-padded
payload (omitted in checksum-only mode) and the complement word of the
running sum `cf` of everything before the complement word. -/
theorem cmd_build_spec (co : Bool) (input : List Nat)
    (hm : be32 (byte input 0) (byte input 1) (byte input 2) (byte input 3) = SQUASHFS_MAGIC_BE)
    (h639 : 639 ≤ input.length)
    (hsz : upEven (input.length - 640) < 4294967296) :
    ∃ cf : Nat, cf < 65536 ∧
      _checksum_buffer ((input.take 8 ++ pack32 (upEven (input.length - 640)))
          ++ padEven (input.drop 12)) 0 = .ok cf ∧
      cmd_build co input = .ok ((if co then []
          else (input.take 8 ++ pack32 (upEven (input.length - 640)))
            ++ padEven (input.drop 12))
        ++ pack16 ((65536 - cf) % 65536)) := by
  have hhp_even : ((input.take 8 ++ pack32 (upEven (input.length - 640))).length) % 2 = 0 := by
    have h8 : (input.take 8).length = 8 := by
      simp only [List.length_take]
      omega
    simp [List.length_append, h8, pack32]
  obtain ⟨c1, hc1⟩ := csum_ok _ hhp_even 0
  have hc1lt : c1 < 65536 := csum_lt _ 0 (by norm_num) c1 hc1
  obtain ⟨cf, hcf⟩ := csum_ok (padEven (input.drop 12)) (padEven_even _) c1
  have hcflt : cf < 65536 := csum_lt _ c1 hc1lt cf hcf
  have hfull : _checksum_buffer ((input.take 8 ++ pack32 (upEven (input.length - 640)))
      ++ padEven (input.drop 12)) 0 = .ok cf := by
    rw [csum_append _ hhp_even, hc1]
    simpa [Except.bind] using hcf
  refine ⟨cf, hcflt, hfull, ?_⟩
  have htoNat : (rtl_build_size input.length).toNat = upEven (input.length - 640) := by
    rw [rtl_build_size_eq input.length h639]
    exact Int.toNat_natCast _
  have hguard : ¬ (rtl_build_size input.length < 0
      ∨ (4294967296 : Int) ≤ rtl_build_size input.length) := by
    rw [rtl_build_size_eq input.length h639]
    push_neg
    constructor
    · exact Int.natCast_nonneg _
    · exact_mod_cast hsz
  simp only [cmd_build]
  rw [if_neg (by omega : ¬ input.length < 8), if_neg (not_not.mpr hm), if_neg hguard, htoNat]
  rw [hc1]
  simp only []
  rw [build_loop_eq, hcf]
  simp [Except.map]

/-- If `cmd_build` succeeded then its guards passed: the magic was right,
the input had at least 639 bytes (with 638 or fewer the Python size is
negative and `struct.pack` raises) and the computed size fits in 32 bits. -/
theorem cmd_build_inv (co : Bool) (input : List Nat) (out : List Nat)
    (h : cmd_build co input = .ok out) :
    be32 (byte input 0) (byte input 1) (byte input 2) (byte input 3) = SQUASHFS_MAGIC_BE ∧
      639 ≤ input.length ∧ upEven (input.length - 640) < 4294967296 := by
  simp only [cmd_build] at h
  by_cases h8 : input.length < 8
  · rw [if_pos h8] at h
    exact absurd h (by simp)
  rw [if_neg h8] at h
  by_cases hm : be32 (byte input 0) (byte input 1) (byte input 2) (byte input 3)
      = SQUASHFS_MAGIC_BE
  case neg =>
    rw [if_pos hm] at h
    exact absurd h (by simp)
  rw [if_neg (not_not.mpr hm)] at h
  by_cases hg : rtl_build_size input.length < 0
      ∨ (4294967296 : Int) ≤ rtl_build_size input.length
  · rw [if_pos hg] at h
    exact absurd h (by simp)
  push_neg at hg
  have h639 : 639 ≤ input.length := by
    by_contra hlt
    exact absurd hg.1 (not_le.mpr (rtl_build_size_neg input.length (by omega)))
  refine ⟨hm, h639, ?_⟩
  have := hg.2
  rw [rtl_build_size_eq input.length h639] at this
  exact_mod_cast this

/-- The explicit shape of any successful `cmd_build` output. -/
theorem cmd_build_ok_elim (co : Bool) (input out : List Nat)
    (h : cmd_build co input = .ok out) :
    ∃ cf : Nat, cf < 65536 ∧
      _checksum_buffer ((input.take 8 ++ pack32 (upEven (input.length - 640)))
          ++ padEven (input.drop 12)) 0 = .ok cf ∧
      out = (if co then []
          else (input.take 8 ++ pack32 (upEven (input.length - 640)))
            ++ padEven (input.drop 12))
        ++ pack16 ((65536 - cf) % 65536) := by
  obtain ⟨hm, h639, hsz⟩ := cmd_build_inv co input out h
  obtain ⟨cf, hlt, hsum, heq⟩ := cmd_build_spec co input hm h639 hsz
  rw [h] at heq
  exact ⟨cf, hlt, hsum, by injection heq⟩

/-! ### Byte indexing through appends -/

theorem byte_append_left (l₁ l₂ : List Nat) (i : Nat) (h : i < l₁.length) :
    byte (l₁ ++ l₂) i = byte l₁ i := by
  simp only [byte, List.getD_eq_getElem?_getD]
  rw [List.getElem?_append_left h]

theorem byte_append_right (l₁ l₂ : List Nat) (i : Nat) (h : l₁.length ≤ i) :
    byte (l₁ ++ l₂) i = byte l₂ (i - l₁.length) := by
  simp only [byte, List.getD_eq_getElem?_getD]
  rw [List.getElem?_append_right h]

theorem byte_take (n i : Nat) (l : List Nat) (h : i < n) : byte (l.take n) i = byte l i := by
  simp only [byte, List.getD_eq_getElem?_getD]
  rw [List.getElem?_take_of_lt h]

/-! ### Concrete sample images used by witnesses -/

/-- A well-formed 642-byte vendor image: magic, all header/payload bytes zero
(so the stored size field is `0` and the protected size is `642`, the whole
file), and the trailing complement word `0x261A` of the two magic words
`0x6873 + 0x7173 = 0xD9E6`. -/
def validImage642 : List Nat :=
  [0x68, 0x73, 0x71, 0x73] ++ List.replicate 636 0 ++ [0x26, 0x1A]

/-- A 640-byte plain SquashFS input for `cmd_build`: magic then zeros. -/
def plainSquash640 : List Nat := [0x68, 0x73, 0x71, 0x73] ++ List.replicate 636 0

/-! ### The claims -/

/-- C5.  Checksum algebra: for every byte sequence `B` of even length the
16-bit word sum `s` computed by `_checksum_buffer` satisfies
`(s + (0x10000 - s) & 0xFFFF) % 65536 = 0`, and summing `B` followed by the
emitted complement word yields accumulator `0`. -/
theorem claim5_checksum_algebra (B : List Nat) (h : B.length % 2 = 0) :
    ∃ s : Nat, _checksum_buffer B 0 = .ok s ∧
      (s + (65536 - s) % 65536) % 65536 = 0 ∧
      _checksum_buffer (B ++ pack16 ((65536 - s) % 65536)) 0 = .ok 0 := by
  obtain ⟨s, hs⟩ := csum_ok B h 0
  have hlt : s < 65536 := csum_lt B 0 (by norm_num) s hs
  refine ⟨s, hs, by omega, ?_⟩
  rw [csum_append B h, hs]
  simp only [Except.bind]
  rw [csum_pack16 ((65536 - s) % 65536) (Nat.mod_lt _ (by norm_num)) s]
  congr 1
  omega

/-- Witness for C5 at the concrete buffer `[1, 2]`. -/
theorem claim5_checksum_algebra_witness :
    ([1, 2] : List Nat).length % 2 = 0 ∧
    ∃ s : Nat, _checksum_buffer [1, 2] 0 = .ok s ∧
      (s + (65536 - s) % 65536) % 65536 = 0 ∧
      _checksum_buffer ([1, 2] ++ pack16 ((65536 - s) % 65536)) 0 = .ok 0 :=
  ⟨by decide, claim5_checksum_algebra [1, 2] (by decide)⟩

/-- C3.  On every input accepted by `cmd_check` (at least the 22 header bytes,
correct magic, `protected_size ≤ file_size`) the check sums the big-endian
16-bit words of the first `protected_size` bytes — `protected_size / 2`
complete words — reducing modulo 65536 after every addition, returns
normally, and reports pass exactly when the sum is zero. -/
theorem claim3_check_semantics (file : List Nat)
    (h22 : 22 ≤ file.length)
    (hm : be32 (byte file 0) (byte file 1) (byte file 2) (byte file 3) = SQUASHFS_MAGIC_BE)
    (hb : be32 (byte file 8) (byte file 9) (byte file 10) (byte file 11)
        + SIZE_OF_SQFS_SUPER_BLOCK + 2 ≤ file.length) :
    ∃ s : Nat,
      _checksum_buffer (file.take (2 * ((be32 (byte file 8) (byte file 9) (byte file 10)
          (byte file 11) + SIZE_OF_SQFS_SUPER_BLOCK + 2) / 2))) 0 = .ok s ∧
      cmd_check file = .ok (s == 0) := by
  have h2n : 2 * ((be32 (byte file 8) (byte file 9) (byte file 10) (byte file 11)
      + SIZE_OF_SQFS_SUPER_BLOCK + 2) / 2) ≤ file.length := by omega
  have heven : (file.take (2 * ((be32 (byte file 8) (byte file 9) (byte file 10) (byte file 11)
      + SIZE_OF_SQFS_SUPER_BLOCK + 2) / 2))).length % 2 = 0 := by
    rw [List.length_take]
    omega
  obtain ⟨s, hs⟩ := csum_ok _ heven 0
  refine ⟨s, hs, ?_⟩
  simp only [cmd_check]
  rw [if_neg (by omega : ¬ file.length < 22), if_neg (not_not.mpr hm),
    if_neg (by omega : ¬ be32 (byte file 8) (byte file 9) (byte file 10) (byte file 11)
      + SIZE_OF_SQFS_SUPER_BLOCK + 2 > file.length)]
  rw [check_words_eq _ file 0 h2n, hs]

/-- Witness for C3 at the concrete valid image `validImage642` (size field 0,
protected size 642 = file size, sum 0: Checksum passed). -/
theorem claim3_check_semantics_witness :
    22 ≤ validImage642.length ∧
    ∃ s : Nat,
      _checksum_buffer (validImage642.take (2 * ((be32 (byte validImage642 8)
          (byte validImage642 9) (byte validImage642 10) (byte validImage642 11)
          + SIZE_OF_SQFS_SUPER_BLOCK + 2) / 2))) 0 = .ok s ∧
      cmd_check validImage642 = .ok (s == 0) :=
  ⟨by decide, claim3_check_semantics validImage642 (by decide) (by decide) (by decide)⟩

/-- C6 (amended).  For every input with at least the 22 header bytes, correct
magic, and `size_field + 642 > file_size`, `cmd_check` and `cmd_extract`
both fail with the RuntimeError Not an RTL Squash filesystem; the failure
happens before the word-summing loop, so `cmd_extract` has written only the
22 header bytes (no checksum word was read or summed). -/
theorem claim6_bound_rejection (file : List Nat)
    (h22 : 22 ≤ file.length)
    (hm : be32 (byte file 0) (byte file 1) (byte file 2) (byte file 3) = SQUASHFS_MAGIC_BE)
    (hb : file.length < be32 (byte file 8) (byte file 9) (byte file 10) (byte file 11)
        + SIZE_OF_SQFS_SUPER_BLOCK + 2) :
    cmd_check file = .error .notRTL ∧
      cmd_extract file = (file.take 22, .error .notRTL) := by
  constructor
  · simp only [cmd_check]
    rw [if_neg (by omega : ¬ file.length < 22), if_neg (not_not.mpr hm),
      if_pos (by omega : be32 (byte file 8) (byte file 9) (byte file 10) (byte file 11)
        + SIZE_OF_SQFS_SUPER_BLOCK + 2 > file.length)]
  · simp only [cmd_extract]
    rw [if_neg (by omega : ¬ file.length < 22), if_neg (not_not.mpr hm),
      if_pos (by omega : be32 (byte file 8) (byte file 9) (byte file 10) (byte file 11)
        + SIZE_OF_SQFS_SUPER_BLOCK + 2 > file.length)]

/-- Witness for C6 at a 22-byte file with magic and size field 0
(protected size 642 > 22). -/
theorem claim6_bound_rejection_witness :
    22 ≤ ([0x68, 0x73, 0x71, 0x73] ++ List.replicate 18 0 : List Nat).length ∧
    cmd_check ([0x68, 0x73, 0x71, 0x73] ++ List.replicate 18 0) = .error .notRTL ∧
      cmd_extract ([0x68, 0x73, 0x71, 0x73] ++ List.replicate 18 0)
        = (([0x68, 0x73, 0x71, 0x73] ++ List.replicate 18 0).take 22, .error .notRTL) :=
  ⟨by decide, claim6_bound_rejection ([0x68, 0x73, 0x71, 0x73] ++ List.replicate 18 0)
    (by decide) (by decide) (by decide)⟩

/-- Counterexample to C6 as stated: this 12-byte file has correct magic and
`size_field + 642 = 642 > 12 = file_size`, yet both operations die in
`struct.unpack` of the 22-byte header (`struct.error`), not with the
RuntimeError the claim names. -/
theorem claim6_counterexample :
    cmd_check [0x68, 0x73, 0x71, 0x73, 0, 0, 0, 0, 0, 0, 0, 0] = .error .structError ∧
      cmd_extract [0x68, 0x73, 0x71, 0x73, 0, 0, 0, 0, 0, 0, 0, 0]
        = ([], .error .structError) ∧
      PyErr.structError ≠ PyErr.notRTL := by
  refine ⟨rfl, rfl, by decide⟩

/-- C7 (amended).  For every input of at least 22 bytes whose first 4 bytes
do not decode to the magic, all four operations fail with the RuntimeError
Doesn t appear to be a SquashFS. -/
theorem claim7_magic_rejection (file : List Nat)
    (h22 : 22 ≤ file.length)
    (hm : be32 (byte file 0) (byte file 1) (byte file 2) (byte file 3) ≠ SQUASHFS_MAGIC_BE) :
    cmd_check file = .error .badMagic ∧
      cmd_build false file = .error .badMagic ∧
      cmd_sum file = .error .badMagic ∧
      cmd_extract file = (file.take 22, .error .badMagic) := by
  refine ⟨?_, ?_, ?_, ?_⟩
  · simp only [cmd_check]
    rw [if_neg (by omega : ¬ file.length < 22), if_pos hm]
  · simp only [cmd_build]
    rw [if_neg (by omega : ¬ file.length < 8), if_pos hm]
  · simp only [cmd_sum, cmd_build]
    rw [if_neg (by omega : ¬ file.length < 8), if_pos hm]
  · simp only [cmd_extract]
    rw [if_neg (by omega : ¬ file.length < 22), if_pos hm]

/-- Witness for C7 at the 22-byte all-zero file. -/
theorem claim7_magic_rejection_witness :
    22 ≤ (List.replicate 22 0 : List Nat).length ∧
    cmd_check (List.replicate 22 0) = .error .badMagic ∧
      cmd_build false (List.replicate 22 0) = .error .badMagic ∧
      cmd_sum (List.replicate 22 0) = .error .badMagic ∧
      cmd_extract (List.replicate 22 0)
        = ((List.replicate 22 0 : List Nat).take 22, .error .badMagic) :=
  ⟨by decide, claim7_magic_rejection (List.replicate 22 0) (by decide) (by decide)⟩

/-- Counterexample to C7 as stated: the 4-byte file `[0,0,0,0]` has wrong
magic, yet every operation dies in `struct.unpack`/short read
(`struct.error`), not with the RuntimeError the claim names. -/
theorem claim7_counterexample :
    cmd_check [0, 0, 0, 0] = .error .structError ∧
      cmd_build false [0, 0, 0, 0] = .error .structError ∧
      cmd_sum [0, 0, 0, 0] = .error .structError ∧
      cmd_extract [0, 0, 0, 0] = ([], .error .structError) ∧
      PyErr.structError ≠ PyErr.badMagic := by
  refine ⟨rfl, rfl, rfl, rfl, by decide⟩

/-- C9 (amended).  Whenever `cmd_extract` fails with one of the two
RuntimeErrors (bad magic or size bound), the output file has already been
created and contains exactly the 22-byte header prefix read by
`struct.unpack` of the `>IIIIIH` layout — the write at the top of the loop
happens before either validation. -/
theorem claim9_extract_partial_output (file : List Nat) (e : PyErr)
    (he : e = .badMagic ∨ e = .notRTL)
    (h : (cmd_extract file).2 = .error e) :
    (cmd_extract file).1 = file.take 22 ∧ (cmd_extract file).1.length = 22 := by
  by_cases h22 : file.length < 22
  · exfalso
    simp only [cmd_extract, if_pos h22] at h
    rcases he with rfl | rfl <;> simp at h
  · by_cases hm : be32 (byte file 0) (byte file 1) (byte file 2) (byte file 3)
        = SQUASHFS_MAGIC_BE
    · by_cases hb : be32 (byte file 8) (byte file 9) (byte file 10) (byte file 11)
          + SIZE_OF_SQFS_SUPER_BLOCK + 2 > file.length
      · simp only [cmd_extract]
        rw [if_neg h22, if_neg (not_not.mpr hm), if_pos hb]
        exact ⟨rfl, by rw [List.length_take]; omega⟩
      · exfalso
        simp only [cmd_extract] at h
        rw [if_neg h22, if_neg (not_not.mpr hm), if_neg hb] at h
        cases hw : extract_words file file.length ((be32 (byte file 8) (byte file 9)
            (byte file 10) (byte file 11) + SIZE_OF_SQFS_SUPER_BLOCK + 2) / 2) 0 0 with
        | ok p =>
            rw [hw] at h
            obtain ⟨out, ck⟩ := p
            simp at h
        | error e2 =>
            rw [hw] at h
            simp only [] at h
            have he2 := extract_words_error _ _ _ _ _ _ hw
            injection h with h23
            rcases he with rfl | rfl <;> rw [he2] at h23 <;> simp at h23
    · simp only [cmd_extract]
      rw [if_neg h22, if_pos hm]
      exact ⟨rfl, by rw [List.length_take]; omega⟩

/-- Witness for C9 at the 22-byte file of sevens (wrong magic). -/
theorem claim9_extract_partial_output_witness :
    ((PyErr.badMagic = PyErr.badMagic ∨ PyErr.badMagic = PyErr.notRTL) ∧
      (cmd_extract (List.replicate 22 7)).2 = .error .badMagic) ∧
    (cmd_extract (List.replicate 22 7)).1 = (List.replicate 22 7 : List Nat).take 22 ∧
      (cmd_extract (List.replicate 22 7)).1.length = 22 :=
  ⟨⟨Or.inl rfl, rfl⟩,
    claim9_extract_partial_output (List.replicate 22 7) .badMagic (Or.inl rfl) rfl⟩

/-- Counterexample to C9 as stated: the header prefix that `cmd_extract`
reads and writes is 22 bytes (`struct.calcsize` of `>IIIIIH` is
`5 * 4 + 2 = 22`), not 18.  On this 22-byte wrong-magic file the output on
the error path is the whole 22-byte prefix and differs from the first 18
bytes. -/
theorem claim9_counterexample :
    cmd_extract (List.replicate 18 0 ++ [1, 1, 1, 1])
      = (List.replicate 18 0 ++ [1, 1, 1, 1], .error .badMagic) ∧
    (cmd_extract (List.replicate 18 0 ++ [1, 1, 1, 1])).1
      ≠ (List.replicate 18 0 ++ [1, 1, 1, 1]).take 18 ∧
    (cmd_extract (List.replicate 18 0 ++ [1, 1, 1, 1])).1.length = 22 := by
  refine ⟨rfl, by decide, by decide⟩

/-- C2 is a code bug, witnessed here: on a well-formed 642-byte vendor image
(`protected_size = 642 = file_size`, checksum valid), `cmd_extract` reports
Checksum passed but its output is `22 + (protected_size - 2) = 662` bytes —
the 22-byte header followed by the whole protected region except the final
checksum word, i.e. the header bytes appear twice — where the spec promises
an output of exactly `protected_size - 2 = 640` bytes. -/
theorem claim2_extract_length_bug :
    validImage642.length = 642 ∧
    be32 (byte validImage642 8) (byte validImage642 9) (byte validImage642 10)
        (byte validImage642 11) + SIZE_OF_SQFS_SUPER_BLOCK + 2 = 642 ∧
    (cmd_extract validImage642).2 = .ok true ∧
    (cmd_extract validImage642).1 = validImage642.take 22 ++ validImage642.take 640 ∧
    (cmd_extract validImage642).1.length = 662 := by
  refine ⟨by decide, by decide, rfl, by decide, by decide⟩

/-- C4.  On every input accepted by `cmd_build`, bytes 8–11 of the output
are the big-endian encoding of the input length minus 640 rounded up to
even — the original content of the size-field bytes of the input is discarded
(the formula depends only on the length of the input). -/
theorem claim4_build_size_field (input out : List Nat)
    (h : cmd_build false input = .ok out) :
    (out.drop 8).take 4 = pack32 (upEven (input.length - 640)) := by
  obtain ⟨hm, h639, hsz⟩ := cmd_build_inv false input out h
  obtain ⟨cf, hlt, hsum, hout⟩ := cmd_build_ok_elim false input out h
  have hout' : out = ((input.take 8 ++ pack32 (upEven (input.length - 640)))
      ++ padEven (input.drop 12)) ++ pack16 ((65536 - cf) % 65536) := hout
  have ht8 : (input.take 8).length = 8 := by rw [List.length_take]; omega
  subst hout'
  simp only [List.append_assoc]
  rw [List.drop_left' ht8,
    List.take_left' (by simp [pack32] : (pack32 (upEven (input.length - 640))).length = 4)]

/-- C10.  On every input accepted by `cmd_build`, the output consists of the
patched 12-byte header, the payload padded to even length (the pad byte, if
any, is written to the output as well as summed), and the 2-byte checksum
word: its length is the input length rounded up to even, plus 2, and the
part before the checksum word has even length. -/
theorem claim10_build_output_length (input out : List Nat)
    (h : cmd_build false input = .ok out) :
    (∃ c : Nat, out = ((input.take 8 ++ pack32 (upEven (input.length - 640)))
        ++ padEven (input.drop 12)) ++ pack16 c) ∧
      out.length = upEven input.length + 2 ∧
      (out.length - 2) % 2 = 0 := by
  obtain ⟨hm, h639, hsz⟩ := cmd_build_inv false input out h
  obtain ⟨cf, hlt, hsum, hout⟩ := cmd_build_ok_elim false input out h
  have hout' : out = ((input.take 8 ++ pack32 (upEven (input.length - 640)))
      ++ padEven (input.drop 12)) ++ pack16 ((65536 - cf) % 65536) := hout
  have ht8 : (input.take 8).length = 8 := by rw [List.length_take]; omega
  have h4 : (pack32 (upEven (input.length - 640))).length = 4 := by simp [pack32]
  have hpe : (padEven (input.drop 12)).length = upEven (input.length - 12) := by
    rw [padEven_length, List.length_drop]
  have hp2 : (pack16 ((65536 - cf) % 65536)).length = 2 := by simp [pack16]
  have hlen : out.length = upEven input.length + 2 := by
    rw [hout', List.length_append, List.length_append, List.length_append,
      ht8, h4, hpe, hp2]
    have h12 := upEven_add_12 input.length (by omega)
    omega
  refine ⟨⟨(65536 - cf) % 65536, hout'⟩, hlen, ?_⟩
  have he := upEven_even input.length
  omega

/-- C8.  Sum-build refinement: whenever `cmd_build` accepts an input,
`cmd_sum` on the same input outputs exactly 2 bytes, and they are the final
2 bytes (the big-endian checksum word) of the output of `cmd_build`; no payload
bytes are copied. -/
theorem claim8_sum_refinement (input out : List Nat)
    (h : cmd_build false input = .ok out) :
    ∃ w : List Nat, cmd_sum input = .ok w ∧ w.length = 2 ∧
      w = out.drop (out.length - 2) := by
  obtain ⟨hm, h639, hsz⟩ := cmd_build_inv false input out h
  obtain ⟨cf, hlt, hsum, hout⟩ := cmd_build_ok_elim false input out h
  obtain ⟨cf2, hlt2, hsum2, heq2⟩ := cmd_build_spec true input hm h639 hsz
  rw [hsum] at hsum2
  injection hsum2 with hcf
  have hout' : out = ((input.take 8 ++ pack32 (upEven (input.length - 640)))
      ++ padEven (input.drop 12)) ++ pack16 ((65536 - cf) % 65536) := hout
  have hw2 : cmd_sum input = .ok (pack16 ((65536 - cf) % 65536)) := by
    show cmd_build true input = _
    have heq2' : cmd_build true input = .ok (pack16 ((65536 - cf2) % 65536)) := heq2
    rw [heq2', ← hcf]
  refine ⟨pack16 ((65536 - cf) % 65536), hw2, by simp [pack16], ?_⟩
  have hp2 : (pack16 ((65536 - cf) % 65536)).length = 2 := by simp [pack16]
  have hdrop : (((input.take 8 ++ pack32 (upEven (input.length - 640)))
      ++ padEven (input.drop 12)) ++ pack16 ((65536 - cf) % 65536)).drop
        ((((input.take 8 ++ pack32 (upEven (input.length - 640)))
      ++ padEven (input.drop 12)) ++ pack16 ((65536 - cf) % 65536)).length - 2)
      = pack16 ((65536 - cf) % 65536) := by
    rw [List.length_append, hp2, Nat.add_sub_cancel, List.drop_left]
  rw [hout']
  exact hdrop.symm

/-- The image `cmd_build` produces from `plainSquash640`: the first 8 input
bytes, the patched size field `0`, the 628 payload zeros, and the complement
word `9754 = 0x261A` of the header sum `0xD9E6`. -/
def buildOut640 : List Nat :=
  [0x68, 0x73, 0x71, 0x73, 0, 0, 0, 0] ++ pack32 0 ++ List.replicate 628 0 ++ pack16 9754

/-- Concrete evaluation of `cmd_build` on `plainSquash640` (the chunk loop
is well-founded recursion, so this is derived through `cmd_build_spec`
rather than by kernel reduction). -/
theorem cmd_build_plain640 : cmd_build false plainSquash640 = .ok buildOut640 := by
  obtain ⟨cf, hlt, hsum, hout⟩ :=
    cmd_build_spec false plainSquash640 (by decide) (by decide) (by decide)
  have h2 : _checksum_buffer ((plainSquash640.take 8
      ++ pack32 (upEven (plainSquash640.length - 640)))
      ++ padEven (plainSquash640.drop 12)) 0 = .ok 55782 := rfl
  rw [h2] at hsum
  injection hsum with hcf
  have hout' : cmd_build false plainSquash640
      = .ok (((plainSquash640.take 8 ++ pack32 (upEven (plainSquash640.length - 640)))
        ++ padEven (plainSquash640.drop 12)) ++ pack16 ((65536 - cf) % 65536)) := hout
  rw [hout', ← hcf]
  rfl

/-- Witness for C4 at the concrete 640-byte input `plainSquash640`. -/
theorem claim4_build_size_field_witness :
    cmd_build false plainSquash640 = .ok buildOut640 ∧
    (buildOut640.drop 8).take 4 = pack32 (upEven (plainSquash640.length - 640)) :=
  ⟨cmd_build_plain640,
    claim4_build_size_field plainSquash640 buildOut640 cmd_build_plain640⟩

/-- Witness for C10 at the concrete 640-byte input `plainSquash640`. -/
theorem claim10_build_output_length_witness :
    cmd_build false plainSquash640 = .ok buildOut640 ∧
    ((∃ c : Nat, buildOut640 = ((plainSquash640.take 8
        ++ pack32 (upEven (plainSquash640.length - 640)))
        ++ padEven (plainSquash640.drop 12)) ++ pack16 c) ∧
      buildOut640.length = upEven plainSquash640.length + 2 ∧
      (buildOut640.length - 2) % 2 = 0) :=
  ⟨cmd_build_plain640,
    claim10_build_output_length plainSquash640 buildOut640 cmd_build_plain640⟩

/-- Witness for C8 at the concrete 640-byte input `plainSquash640`. -/
theorem claim8_sum_refinement_witness :
    cmd_build false plainSquash640 = .ok buildOut640 ∧
    ∃ w : List Nat, cmd_sum plainSquash640 = .ok w ∧ w.length = 2 ∧
      w = buildOut640.drop (buildOut640.length - 2) :=
  ⟨cmd_build_plain640,
    claim8_sum_refinement plainSquash640 buildOut640 cmd_build_plain640⟩

/-- C1 (amended).  Round-trip: for every SquashFS payload with the correct
magic, at least 639 bytes (with 638 or fewer, `struct.pack` of the negative
size raises and `cmd_build` produces no output) and a computed size below
`2^32`, running `cmd_check` on the image `cmd_build` produces reports
Checksum passed. -/
theorem claim1_roundtrip (input : List Nat)
    (hm : be32 (byte input 0) (byte input 1) (byte input 2) (byte input 3) = SQUASHFS_MAGIC_BE)
    (h639 : 639 ≤ input.length)
    (hsz : upEven (input.length - 640) < 4294967296) :
    ∃ out : List Nat, cmd_build false input = .ok out ∧ cmd_check out = .ok true := by
  obtain ⟨cf, hlt, hsum, hout⟩ := cmd_build_spec false input hm h639 hsz
  have hout' : cmd_build false input
      = .ok (((input.take 8 ++ pack32 (upEven (input.length - 640)))
        ++ padEven (input.drop 12)) ++ pack16 ((65536 - cf) % 65536)) := hout
  refine ⟨_, hout', ?_⟩
  set z := upEven (input.length - 640) with hzdef
  set O := ((input.take 8 ++ pack32 z) ++ padEven (input.drop 12))
      ++ pack16 ((65536 - cf) % 65536) with hOdef
  have ht8 : (input.take 8).length = 8 := by rw [List.length_take]; omega
  have h4 : (pack32 z).length = 4 := by simp [pack32]
  have hhp : (input.take 8 ++ pack32 z).length = 12 := by rw [List.length_append, ht8, h4]
  have hpe : (padEven (input.drop 12)).length = upEven (input.length - 12) := by
    rw [padEven_length, List.length_drop]
  have hp2 : (pack16 ((65536 - cf) % 65536)).length = 2 := by simp [pack16]
  have h12 := upEven_add_12 input.length (by omega : 12 ≤ input.length)
  have hOlen : O.length = upEven input.length + 2 := by
    rw [hOdef, List.length_append, List.length_append, hhp, hpe, hp2]
    omega
  have hup := le_upEven input.length
  have hS : SIZE_OF_SQFS_SUPER_BLOCK = 640 := rfl
  have h640 := upEven_sub_640 input.length h639
  have hze := upEven_even (input.length - 640)
  have hOe := upEven_even input.length
  have hO12 : O.take 12 = input.take 8 ++ pack32 z := by
    rw [hOdef, List.append_assoc]
    exact List.take_left' hhp
  have hbyteO : ∀ i, i < 12 → byte O i = byte (input.take 8 ++ pack32 z) i := by
    intro i hi
    rw [← byte_take 12 i O hi, hO12]
  have hmb : ∀ i, i < 4 → byte O i = byte input i := by
    intro i hi
    rw [hbyteO i (by omega), byte_append_left _ _ i (by rw [ht8]; omega),
      byte_take 8 i input (by omega)]
  have hzb : ∀ j, j < 4 → byte O (8 + j) = byte (pack32 z) j := by
    intro j hj
    rw [hbyteO (8 + j) (by omega), byte_append_right _ _ (8 + j) (by rw [ht8]; omega), ht8]
    congr 1
    omega
  have hb8 : byte O 8 = z / 16777216 % 256 := by
    simpa [byte, pack32] using hzb 0 (by omega)
  have hb9 : byte O 9 = z / 65536 % 256 := by
    simpa [byte, pack32] using hzb 1 (by omega)
  have hb10 : byte O 10 = z / 256 % 256 := by
    simpa [byte, pack32] using hzb 2 (by omega)
  have hb11 : byte O 11 = z % 256 := by
    simpa [byte, pack32] using hzb 3 (by omega)
  simp only [cmd_check]
  rw [if_neg (show ¬ O.length < 22 by rw [hOlen]; omega)]
  rw [hmb 0 (by omega), hmb 1 (by omega), hmb 2 (by omega), hmb 3 (by omega),
    if_neg (not_not.mpr hm)]
  rw [hb8, hb9, hb10, hb11, be32_pack32 z hsz]
  rw [if_neg (show ¬ z + SIZE_OF_SQFS_SUPER_BLOCK + 2 > O.length by rw [hOlen]; omega)]
  rw [check_words_eq ((z + SIZE_OF_SQFS_SUPER_BLOCK + 2) / 2) O 0 (by omega)]
  rw [show O.take (2 * ((z + SIZE_OF_SQFS_SUPER_BLOCK + 2) / 2)) = O from by
    rw [show 2 * ((z + SIZE_OF_SQFS_SUPER_BLOCK + 2) / 2) = O.length from by omega]
    exact List.take_length O]
  have hOsum : _checksum_buffer O 0 = .ok ((cf + (65536 - cf) % 65536) % 65536) := by
    have hhpe_even : ((input.take 8 ++ pack32 z) ++ padEven (input.drop 12)).length % 2
        = 0 := by
      rw [List.length_append, hhp]
      have := padEven_even (input.drop 12)
      omega
    rw [hOdef, csum_append _ hhpe_even, hsum]
    simp only [Except.bind]
    exact csum_pack16 _ (Nat.mod_lt _ (by norm_num)) cf
  rw [hOsum, show (cf + (65536 - cf) % 65536) % 65536 = 0 from by omega]
  rfl

/-- Witness for C1 at the concrete 640-byte input `plainSquash640`. -/
theorem claim1_roundtrip_witness :
    (be32 (byte plainSquash640 0) (byte plainSquash640 1) (byte plainSquash640 2)
        (byte plainSquash640 3) = SQUASHFS_MAGIC_BE ∧
      639 ≤ plainSquash640.length ∧
      upEven (plainSquash640.length - 640) < 4294967296) ∧
    ∃ out : List Nat, cmd_build false plainSquash640 = .ok out ∧ cmd_check out = .ok true :=
  ⟨⟨by decide, by decide, by decide⟩,
    claim1_roundtrip plainSquash640 (by decide) (by decide) (by decide)⟩

/-- Counterexample to C1 as stated: this 12-byte payload has the magic and
is at least 12 bytes long, yet `cmd_build` dies in `struct.pack` of the
negative size `12 - 640 = -628` (`struct.error`), so there is no output
image for `cmd_check` to accept. -/
theorem claim1_counterexample :
    be32 (byte [0x68, 0x73, 0x71, 0x73, 0, 0, 0, 0, 0, 0, 0, 0] 0)
        (byte [0x68, 0x73, 0x71, 0x73, 0, 0, 0, 0, 0, 0, 0, 0] 1)
        (byte [0x68, 0x73, 0x71, 0x73, 0, 0, 0, 0, 0, 0, 0, 0] 2)
        (byte [0x68, 0x73, 0x71, 0x73, 0, 0, 0, 0, 0, 0, 0, 0] 3) = SQUASHFS_MAGIC_BE ∧
    ([0x68, 0x73, 0x71, 0x73, 0, 0, 0, 0, 0, 0, 0, 0] : List Nat).length = 12 ∧
    cmd_build false [0x68, 0x73, 0x71, 0x73, 0, 0, 0, 0, 0, 0, 0, 0]
      = .error .structError := by
  refine ⟨by decide, by decide, rfl⟩

end RTL
